import Mathlib

/-!
Verification of the Deep Note synthesizer engine (`src/deepNote.ts`).

The engine is shallowly embedded: JS numbers are modelled as exact
rationals (`ℚ`) for the discrete/configuration layer and as reals (`ℝ`)
where the code computes with `Math.cos`.  Stateful methods become pure
state transformers on an explicit `EngineState`; the browser timer queue
(`setTimeout` / `clearTimeout`) is modelled as an explicit list of armed
timers processed by an event step function; JS array aliasing (the shallow
copy `[...this.frequencyHistory]`) is modelled with an explicit store of
inner arrays addressed by voice index.
-/

namespace DeepNote

/-- Lifecycle phase of the synthesizer, from `DeepNotePhase` in `types.ts`. -/
inductive DeepNotePhase where
  | idle
  | chaos
  | converge
  | sustain
deriving DecidableEq, Repr

/-- Configuration record, from `DeepNoteConfig` in `types.ts`.  All numeric
fields are JS numbers; `voiceCount` is used only as a loop bound so it is
modelled as a natural number. -/
structure DeepNoteConfig where
  voiceCount : ℕ
  minStartFreq : ℚ
  maxStartFreq : ℚ
  chaosDuration : ℚ
  convergeDuration : ℚ
  sustainDuration : ℚ
  fadeDuration : ℚ
  sampleRate : ℚ
deriving DecidableEq, Repr

/-- A `Partial<DeepNoteConfig>` argument to the constructor: every field
optional. -/
structure ConfigOverrides where
  voiceCount : Option ℕ := none
  minStartFreq : Option ℚ := none
  maxStartFreq : Option ℚ := none
  chaosDuration : Option ℚ := none
  convergeDuration : Option ℚ := none
  sustainDuration : Option ℚ := none
  fadeDuration : Option ℚ := none
  sampleRate : Option ℚ := none
deriving DecidableEq, Repr

/-- The constructor body (`deepNote.ts` lines 49-66): spread the caller's
partial config over the defaults.  No field is examined, clamped or
rejected. -/
def mkConfig (p : ConfigOverrides) : DeepNoteConfig where
  voiceCount := p.voiceCount.getD 30
  minStartFreq := p.minStartFreq.getD 200
  maxStartFreq := p.maxStartFreq.getD 400
  chaosDuration := p.chaosDuration.getD 4
  convergeDuration := p.convergeDuration.getD 3
  sustainDuration := p.sustainDuration.getD 4
  fadeDuration := p.fadeDuration.getD 1
  sampleRate := p.sampleRate.getD 44100

/-- The default configuration, i.e. the constructor applied to `{}`. -/
def defaultConfig : DeepNoteConfig := mkConfig {}

/-- Validity of a configuration in the sense of the specification:
`voiceCount ≥ 1`, `0 < minStartFreq < maxStartFreq`, every duration
positive, positive sample rate.  (The source never checks this; the
predicate exists to state claims about validation.) -/
def validConfig (c : DeepNoteConfig) : Prop :=
  1 ≤ c.voiceCount ∧ 0 < c.minStartFreq ∧ c.minStartFreq < c.maxStartFreq ∧
  0 < c.chaosDuration ∧ 0 < c.convergeDuration ∧ 0 < c.sustainDuration ∧
  0 < c.fadeDuration ∧ 0 < c.sampleRate

instance (c : DeepNoteConfig) : Decidable (validConfig c) := by
  unfold validConfig; infer_instance

/-- Equal loudness compensation (`calculateCompensationGain`,
`deepNote.ts` lines 85-116): clamp the frequency to `[20, 20000]`, then a
banded piecewise-constant gain. -/
def calculateCompensationGain (frequency : ℚ) : ℚ :=
  let f := max 20 (min 20000 frequency)
  if f < 100 then 3
  else if f < 200 then 2
  else if f < 500 then 3/2
  else if f < 2000 then 1
  else if f < 5000 then 6/5
  else 3/2

/-- The 30-entry target frequency array (`deepNote.ts` lines 32-47):
the 15-entry D-major ladder followed by the same 15 values again
("additional voices for richness"). -/
def targetFrequencies : List ℚ :=
  [73.42, 92.50, 110.00,
   146.83, 185.00, 220.00,
   293.66, 369.99, 440.00,
   587.33, 739.99, 880.00,
   1174.66, 1479.98, 1760.00,
   73.42, 92.50, 110.00, 146.83, 185.00, 220.00,
   293.66, 369.99, 440.00, 587.33, 739.99, 880.00,
   1174.66, 1479.98, 1760.00]

/-- The fixed 15-entry D-major table as the specification words it
(§6 of the spec).  Stated separately so voice targeting can be compared
against it. -/
def specTargetTable : List ℚ :=
  [73.42, 92.50, 110.00,
   146.83, 185.00, 220.00,
   293.66, 369.99, 440.00,
   587.33, 739.99, 880.00,
   1174.66, 1479.98, 1760.00]

/-- Target assignment for voice `i` (`deepNote.ts` line 197):
`targetFrequencies[i % targetFrequencies.length]`. -/
def voiceTarget (i : ℕ) : ℚ :=
  targetFrequencies.getD (i % targetFrequencies.length) 0

/-- The phase update performed on each visualization tick
(`deepNote.ts` lines 277-283): strict comparisons against the cumulative
thresholds; below `chaosDuration` the phase is left as it was. -/
def updatePhase (c : DeepNoteConfig) (current : DeepNotePhase) (elapsed : ℚ) :
    DeepNotePhase :=
  if elapsed > c.chaosDuration + c.convergeDuration then .sustain
  else if elapsed > c.chaosDuration then .converge
  else current

/-- Phase as a function of elapsed time while playing: `start()` sets the
phase to `chaos`, after which each tick applies `updatePhase`. -/
def phaseAt (c : DeepNoteConfig) (elapsed : ℚ) : DeepNotePhase :=
  updatePhase c .chaos elapsed

/-- Total duration (`getTotalDuration`, `deepNote.ts` lines 122-125). -/
def getTotalDuration (c : DeepNoteConfig) : ℚ :=
  c.chaosDuration + c.convergeDuration + c.sustainDuration + c.fadeDuration

/-- The ease-in-out curve of the convergence scheduler
(`deepNote.ts` line 261): `0.5 * (1 - Math.cos(Math.PI * progress))`. -/
noncomputable def easedProgress (p : ℝ) : ℝ :=
  0.5 * (1 - Real.cos (Real.pi * p))

/-- One set-point of the convergence schedule (`deepNote.ts` lines
256-266) for a voice with the given start and target frequency, at update
index `k` of `N = totalUpdates`: `start + (target - start) * e(k / N)`. -/
noncomputable def convergenceSetPoint (start target : ℝ) (N k : ℕ) : ℝ :=
  start + (target - start) * easedProgress ((k : ℝ) / (N : ℝ))

/-- Number of scheduled updates (`deepNote.ts` lines 253-254):
`Math.floor((endTime - startTime) / 0.01)` where the window length is
`convergeDuration`. -/
def totalUpdates (convergeDuration : ℚ) : ℤ :=
  Int.floor (convergeDuration / (1 / 100))

/-- Division as JS computes it on the only path the scheduler exercises:
a zero divisor produces a non-finite number (`0 / 0` is `NaN`), modelled
as `none`. -/
def jsDiv (a b : ℚ) : Option ℚ :=
  if b = 0 then none else some (a / b)

/-- The `progress` value of scheduler iteration `i`
(`deepNote.ts` line 258): `i / totalUpdates`, `none` when the divisor is
zero (JS `NaN`). -/
def schedulerProgress (convergeDuration : ℚ) (i : ℕ) : Option ℚ :=
  jsDiv (i : ℚ) ((totalUpdates convergeDuration : ℤ) : ℚ)

/-- The set-point frequency of scheduler iteration `i` with `NaN`
propagation: `none` whenever the progress is `NaN`, because
`cos (π * NaN)` and every arithmetic combination of a `NaN` is `NaN`. -/
noncomputable def schedulerSetPoint (start target : ℝ)
    (convergeDuration : ℚ) (i : ℕ) : Option ℝ :=
  (schedulerProgress convergeDuration i).map
    (fun p => start + (target - start) * easedProgress (p : ℝ))

/-- A point of the per-voice frequency history (`FrequencyPoint` in
`types.ts`). -/
structure FrequencyPoint where
  time : ℚ
  frequency : ℝ

/-- One voice (`DeepNoteVoice` in `types.ts`), without the opaque audio
node handles. -/
structure DeepNoteVoice where
  startFrequency : ℚ
  targetFrequency : ℚ
  currentFrequency : ℚ
  compensationGain : ℚ

/-- The mutable fields of `DeepNoteSynthesizer` that the lifecycle methods
read and write. -/
structure EngineState where
  phase : DeepNotePhase
  voices : List DeepNoteVoice
  frequencyHistory : List (List FrequencyPoint)
  animationId : Option ℕ
  startTime : ℚ

/-- Engine state as constructed (`idle`, no voices, no history). -/
def initialState : EngineState where
  phase := .idle
  voices := []
  frequencyHistory := []
  animationId := none
  startTime := 0

/-- Voice creation (`initializeVoices`, `deepNote.ts` lines 185-221);
`randoms i` stands for the `Math.random()` draw of voice `i`. -/
def initializeVoices (c : DeepNoteConfig) (randoms : ℕ → ℚ) :
    List DeepNoteVoice :=
  (List.range c.voiceCount).map (fun i =>
    let startFrequency := c.minStartFreq + randoms i * (c.maxStartFreq - c.minStartFreq)
    { startFrequency := startFrequency
      targetFrequency := voiceTarget i
      currentFrequency := startFrequency
      compensationGain := calculateCompensationGain (voiceTarget i) })

/-- History initialization (`initializeFrequencyHistory`, `deepNote.ts`
lines 167-169): one empty buffer per voice. -/
def initializeFrequencyHistory (voices : List DeepNoteVoice) :
    List (List FrequencyPoint) :=
  voices.map (fun _ => [])

/-- The state effect of `start()` (`deepNote.ts` lines 127-144): no-op
unless idle; otherwise create voices and history, record the start time
and enter the chaos phase. -/
def startEngine (c : DeepNoteConfig) (randoms : ℕ → ℚ) (now : ℚ)
    (s : EngineState) : EngineState :=
  if s.phase ≠ .idle then s
  else
    let voices := initializeVoices c randoms
    { phase := .chaos
      voices := voices
      frequencyHistory := initializeFrequencyHistory voices
      animationId := s.animationId
      startTime := now }

/-- The state effect of `stop()` (`deepNote.ts` lines 171-183): phase to
idle, voices and history discarded, pending animation frame cancelled. -/
def stopEngine (s : EngineState) : EngineState :=
  { s with phase := .idle, voices := [], frequencyHistory := [], animationId := none }

/-- `getCurrentPhase()` (`deepNote.ts` lines 328-330). -/
def getCurrentPhase (s : EngineState) : DeepNotePhase :=
  s.phase

/-- `getElapsedTime()` (`deepNote.ts` lines 332-335): zero when idle,
otherwise device time minus start time. -/
def getElapsedTime (s : EngineState) (now : ℚ) : ℚ :=
  if s.phase = .idle then 0 else now - s.startTime

/-- The per-voice current frequency computed on a visualization tick
(`deepNote.ts` lines 286-297). -/
noncomputable def tickCurrentFrequency (c : DeepNoteConfig)
    (phase : DeepNotePhase) (elapsed : ℚ) (v : DeepNoteVoice) : ℝ :=
  match phase with
  | .chaos => (v.startFrequency : ℝ)
  | .converge =>
      (v.startFrequency : ℝ) +
        ((v.targetFrequency : ℝ) - (v.startFrequency : ℝ)) *
          easedProgress (((elapsed - c.chaosDuration) / c.convergeDuration : ℚ) : ℝ)
  | _ => (v.targetFrequency : ℝ)

/-- Appending one tick's frequencies to the per-voice history buffers
(`deepNote.ts` lines 302-309): `frequencyHistory[index].push({time, freq})`
for each index of `currentFrequencies`. -/
def pushHistory (history : List (List FrequencyPoint))
    (freqs : List ℝ) (t : ℚ) : List (List FrequencyPoint) :=
  List.zipWith (fun buf f => buf ++ [⟨t, f⟩]) history freqs

/-- The visualization snapshot handed to the consumer
(`AudioVisualization` in `types.ts`). -/
structure Snapshot where
  frequencies : List ℚ
  currentFrequencies : List ℝ
  frequencyHistory : List (List FrequencyPoint)
  currentTime : ℚ
  totalDuration : ℚ
  timestamp : ℚ

/-- One iteration of `updateVisualization` (`deepNote.ts` lines 272-323):
bail out when idle; otherwise update the phase, compute current
frequencies, append them to the history, and publish a snapshot. -/
noncomputable def visualizationTick (c : DeepNoteConfig) (s : EngineState)
    (now : ℚ) : EngineState × Option Snapshot :=
  if s.phase = .idle then (s, none)
  else
    let elapsed := now - s.startTime
    let phase' := updatePhase c s.phase elapsed
    let currentFrequencies := s.voices.map (tickCurrentFrequency c phase' elapsed)
    let frequencies := s.voices.map (fun v => v.targetFrequency)
    let history' := pushHistory s.frequencyHistory currentFrequencies elapsed
    ({ s with phase := phase', frequencyHistory := history' },
     some { frequencies := frequencies
            currentFrequencies := currentFrequencies
            frequencyHistory := history'
            currentTime := elapsed
            totalDuration := getTotalDuration c
            timestamp := now })

/-- Running a sequence of visualization ticks at the given device times,
collecting the emitted snapshots. -/
noncomputable def runTicks (c : DeepNoteConfig) (s : EngineState) :
    List ℚ → EngineState × List Snapshot
  | [] => (s, [])
  | t :: ts =>
      let step := visualizationTick c s t
      let rest := runTicks c step.1 ts
      (rest.1, step.2.toList ++ rest.2)

/-- Start of the fade window (`scheduleEnding`, `deepNote.ts` line 147):
`chaosDuration + convergeDuration + sustainDuration` after `start()`. -/
def fadeStartTime (c : DeepNoteConfig) : ℚ :=
  c.chaosDuration + c.convergeDuration + c.sustainDuration

/-- The two kinds of `setTimeout` callback armed by `scheduleEnding`
(`deepNote.ts` lines 146-165): the outer fade-out ramp and the inner
auto-stop. -/
inductive TimerKind where
  | fadeRamp
  | autoStop
deriving DecidableEq, Repr

/-- A pending `setTimeout` in the browser timer queue: when it was armed,
when it fires, and which callback it runs. -/
structure Timer where
  armedAt : ℚ
  fireAt : ℚ
  kind : TimerKind
deriving DecidableEq, Repr

/-- The engine's phase together with the browser timer queue and a log of
the fade/stop effects that have actually run.  An effect record is
`(fire time, arming time of the timer, kind)`. -/
structure TimerSystem where
  phase : DeepNotePhase
  timers : List Timer
  effects : List (ℚ × ℚ × TimerKind)
deriving DecidableEq, Repr

/-- External events driving the timer model: a `start()` call, a `stop()`
call, and the browser clock reaching time `t` and running the due
timers. -/
inductive TimerEvent where
  | startEv (t : ℚ)
  | stopEv (t : ℚ)
  | fireEv (t : ℚ)
deriving DecidableEq, Repr

/-- Running one due timer's callback (`deepNote.ts` lines 150-163): both
callbacks begin with the guard `if (this.phase !== 'idle')`; the fade
callback ramps the master gain (logged as an effect) and arms the inner
auto-stop timeout `fadeDuration` later; the auto-stop callback calls
`stop()`. -/
def fireTimer (c : DeepNoteConfig) (tm : Timer) (s : TimerSystem) : TimerSystem :=
  if s.phase = .idle then s
  else
    match tm.kind with
    | .fadeRamp =>
        { s with
          effects := s.effects ++ [(tm.fireAt, tm.armedAt, .fadeRamp)]
          timers := s.timers ++ [⟨tm.fireAt, tm.fireAt + c.fadeDuration, .autoStop⟩] }
    | .autoStop =>
        { s with
          phase := .idle
          effects := s.effects ++ [(tm.fireAt, tm.armedAt, .autoStop)] }

/-- One step of the lifecycle-with-timers model.  `start()` (guarded on
idle) arms the fade timeout at `fadeStartTime` (`scheduleEnding`);
`stop()` sets the phase to idle and leaves the timer queue untouched —
the source stores no timeout handle and never calls `clearTimeout`, its
`stop()` cancels only the animation frame; a fire event runs every timer
due at that instant. -/
def timerStep (c : DeepNoteConfig) (s : TimerSystem) : TimerEvent → TimerSystem
  | .startEv t =>
      if s.phase ≠ .idle then s
      else
        { s with
          phase := .chaos
          timers := s.timers ++ [⟨t, t + fadeStartTime c, .fadeRamp⟩] }
  | .stopEv _ => { s with phase := .idle }
  | .fireEv t =>
      let due := s.timers.filter (fun tm => decide (tm.fireAt = t))
      let s' := { s with timers := s.timers.filter (fun tm => decide (tm.fireAt ≠ t)) }
      due.foldl (fun acc tm => fireTimer c tm acc) s'

/-- Process a chronological list of events from the freshly constructed
engine (idle, empty timer queue, no effects yet). -/
def runTimerEvents (c : DeepNoteConfig) (events : List TimerEvent) : TimerSystem :=
  events.foldl (timerStep c) ⟨.idle, [], []⟩

/-- In JS, `[...this.frequencyHistory]` (`deepNote.ts` line 315) copies
only the outer array: the elements are references to the engine's inner
per-voice arrays, which later `push` calls mutate in place.  The inner
arrays are modelled as entries of a store addressed by voice index, and a
published snapshot's history field as the list of those addresses. -/
def shallowCopyRefs (store : List (List FrequencyPoint)) : List ℕ :=
  List.range store.length

/-- What the consumer sees when it reads a published snapshot's history
field while the engine's store has the given contents: each reference is
dereferenced into the current inner array. -/
def sharedHistoryView (refs : List ℕ) (store : List (List FrequencyPoint)) :
    List (List FrequencyPoint) :=
  refs.map (fun r => store.getD r [])

/-- C1, counterexample: the constructor accepts `voiceCount = 0` — an
invalid configuration by the spec's own criteria — without raising
anything and without clamping: construction yields a config whose
`voiceCount` is still `0`. -/
theorem mkConfig_accepts_invalid :
    ¬ validConfig (mkConfig { voiceCount := some 0 }) ∧
    (mkConfig { voiceCount := some 0 }).voiceCount = 0 ∧
    ¬ validConfig (mkConfig { chaosDuration := some (-1) }) ∧
    (mkConfig { chaosDuration := some (-1) }).chaosDuration = -1 := by
  refine ⟨by decide, rfl, by decide, rfl⟩

/-- C1, amended: the constructor performs no validation at all.  Every
override the caller supplies — valid or not — lands verbatim in the
constructed config (nothing is clamped, nothing raises), and only the
built-in defaults are themselves valid. -/
theorem mkConfig_no_validation (p : ConfigOverrides) :
    (∀ n, p.voiceCount = some n → (mkConfig p).voiceCount = n) ∧
    (∀ q, p.minStartFreq = some q → (mkConfig p).minStartFreq = q) ∧
    (∀ q, p.maxStartFreq = some q → (mkConfig p).maxStartFreq = q) ∧
    (∀ q, p.chaosDuration = some q → (mkConfig p).chaosDuration = q) ∧
    (∀ q, p.convergeDuration = some q → (mkConfig p).convergeDuration = q) ∧
    (∀ q, p.sustainDuration = some q → (mkConfig p).sustainDuration = q) ∧
    (∀ q, p.fadeDuration = some q → (mkConfig p).fadeDuration = q) ∧
    (∀ q, p.sampleRate = some q → (mkConfig p).sampleRate = q) ∧
    validConfig defaultConfig := by
  refine ⟨?_, ?_, ?_, ?_, ?_, ?_, ?_, ?_, by decide⟩ <;>
    intro v hv <;> simp [mkConfig, hv]

/-- C1, witness for the amended claim at a concrete invalid override. -/
theorem mkConfig_no_validation_witness :
    (mkConfig { voiceCount := some 0 }).voiceCount = 0 :=
  (mkConfig_no_validation { voiceCount := some 0 }).1 0 rfl

/-- C3, counterexample: with the default (valid) configuration, at
elapsed time exactly `chaosDuration` the phase is still `chaos`, not
`converge` — the tick uses a strict `>` against the threshold, so the
boundary instant stays in the earlier phase. -/
theorem phaseAt_boundary_is_chaos :
    validConfig defaultConfig ∧
    defaultConfig.chaosDuration = 4 ∧
    phaseAt defaultConfig 4 = .chaos ∧
    phaseAt defaultConfig 4 ≠ .converge := by
  have hph : phaseAt defaultConfig 4 = .chaos := by
    unfold phaseAt updatePhase
    norm_num [defaultConfig, mkConfig]
  exact ⟨by decide, rfl, hph, by rw [hph]; decide⟩

/-- C3, amended: for every valid config, the phase at elapsed 0 is
`chaos`; elapsed equal to `chaosDuration` still belongs to `chaos`
(strict `>` comparisons); elapsed in `(chaosDuration,
chaosDuration + convergeDuration]` is `converge`; and any elapsed
strictly greater than `chaosDuration + convergeDuration` is `sustain`. -/
theorem phaseAt_boundaries (c : DeepNoteConfig) (e : ℚ) (hc : validConfig c) :
    phaseAt c 0 = .chaos ∧
    phaseAt c c.chaosDuration = .chaos ∧
    (c.chaosDuration < e → e ≤ c.chaosDuration + c.convergeDuration →
      phaseAt c e = .converge) ∧
    (c.chaosDuration + c.convergeDuration < e → phaseAt c e = .sustain) := by
  obtain ⟨-, -, -, h1, h2, -, -, -⟩ := hc
  unfold phaseAt updatePhase
  refine ⟨?_, ?_, ?_, ?_⟩
  · rw [if_neg (by linarith), if_neg (by linarith)]
  · rw [if_neg (by linarith), if_neg (by linarith)]
  · intro ha hb
    rw [if_neg (by linarith), if_pos (by linarith)]
  · intro ha
    rw [if_pos (by linarith)]

/-- C3, witness: the amended boundary behaviour at the default config. -/
theorem phaseAt_boundaries_witness :
    phaseAt defaultConfig 0 = .chaos ∧ phaseAt defaultConfig 5 = .converge ∧
    phaseAt defaultConfig 8 = .sustain :=
  ⟨(phaseAt_boundaries defaultConfig 5 (by decide)).1,
   (phaseAt_boundaries defaultConfig 5 (by decide)).2.2.1
     (by norm_num [defaultConfig, mkConfig])
     (by norm_num [defaultConfig, mkConfig]),
   (phaseAt_boundaries defaultConfig 8 (by decide)).2.2.2
     (by norm_num [defaultConfig, mkConfig])⟩

/-- C5, counterexample: the compensation curve is not monotonically
non-decreasing on `[20, 500)`: it drops from 3.0 at 99 Hz to 2.0 at
100 Hz. -/
theorem gain_decreases_on_low_band :
    (20 : ℚ) ≤ 99 ∧ (99 : ℚ) < 100 ∧ (100 : ℚ) < 500 ∧
    calculateCompensationGain 100 < calculateCompensationGain 99 := by
  norm_num [calculateCompensationGain, min_def, max_def]

/-- C5, amended: the compensation curve is monotonically non-increasing
on `[20, 500)`, constantly 1.0 on `[500, 2000)`, non-decreasing above
2000, and the band boundaries match exactly: gain(99)=3.0, gain(100)=2.0,
gain(1999)=1.0, gain(2000)=1.2. -/
theorem calculateCompensationGain_bands (x y : ℚ)
    (h20 : 20 ≤ x) (hxy : x ≤ y) :
    (y < 500 → calculateCompensationGain y ≤ calculateCompensationGain x) ∧
    (500 ≤ x → y < 2000 →
      calculateCompensationGain x = 1 ∧ calculateCompensationGain y = 1) ∧
    (2000 ≤ x → calculateCompensationGain x ≤ calculateCompensationGain y) ∧
    calculateCompensationGain 99 = 3 ∧ calculateCompensationGain 100 = 2 ∧
    calculateCompensationGain 1999 = 1 ∧ calculateCompensationGain 2000 = 6/5 := by
  have hclx : max 20 (min 20000 x) ≤ max 20 (min 20000 y) :=
    max_le_max le_rfl (min_le_min le_rfl hxy)
  refine ⟨?_, ?_, ?_,
    by norm_num [calculateCompensationGain, min_def, max_def],
    by norm_num [calculateCompensationGain, min_def, max_def],
    by norm_num [calculateCompensationGain, min_def, max_def],
    by norm_num [calculateCompensationGain, min_def, max_def]⟩
  · intro hy
    have hfx : max 20 (min 20000 x) = x := by
      rw [min_eq_right (by linarith), max_eq_right (by linarith)]
    have hfy : max 20 (min 20000 y) = y := by
      rw [min_eq_right (by linarith), max_eq_right (by linarith)]
    simp only [calculateCompensationGain, hfx, hfy]
    split_ifs <;> linarith
  · intro hx hy
    have hfx : max 20 (min 20000 x) = x := by
      rw [min_eq_right (by linarith), max_eq_right (by linarith)]
    have hfy : max 20 (min 20000 y) = y := by
      rw [min_eq_right (by linarith), max_eq_right (by linarith)]
    constructor <;> simp only [calculateCompensationGain, hfx, hfy] <;>
      split_ifs <;> first | rfl | linarith
  · intro hx
    have hfx2 : 2000 ≤ max 20 (min 20000 x) := by
      rcases le_total x 20000 with h | h
      · rw [min_eq_right h, max_eq_right (by linarith)]; exact hx
      · rw [min_eq_left h, max_eq_right (by norm_num)]; norm_num
    simp only [calculateCompensationGain]
    split_ifs <;> linarith

/-- C5, witness for the amended claim: 300 Hz ≥ 250 Hz gain-wise in the
low band, constant band at 600 Hz, and non-decreasing step across
5000 Hz. -/
theorem calculateCompensationGain_bands_witness :
    calculateCompensationGain 300 ≤ calculateCompensationGain 250 ∧
    calculateCompensationGain 600 = 1 ∧
    calculateCompensationGain 2500 ≤ calculateCompensationGain 6000 :=
  ⟨(calculateCompensationGain_bands 250 300 (by norm_num) (by norm_num)).1
      (by norm_num),
   ((calculateCompensationGain_bands 600 600 (by norm_num) le_rfl).2.1
      (by norm_num) (by norm_num)).1,
   (calculateCompensationGain_bands 2500 6000 (by norm_num) (by norm_num)).2.2.1
      (by norm_num)⟩

/-- The 30-entry source array is literally the spec's 15-entry table
repeated twice. -/
theorem targetFrequencies_eq_twice :
    targetFrequencies = specTargetTable ++ specTargetTable := rfl

/-- C7: every voice's target frequency is entry `i % 15` of the fixed
15-entry D-major table; in particular voice 0 and voice 15 receive the
identical target.  (The source indexes a 30-entry array modulo 30, but
that array is the 15-entry table repeated, so the two indexings agree.) -/
theorem voiceTarget_eq_specTable (i : ℕ) :
    voiceTarget i = specTargetTable.getD (i % 15) 0 ∧
    voiceTarget 0 = voiceTarget 15 := by
  constructor
  · have h30 : i % 30 < 30 := Nat.mod_lt _ (by norm_num)
    have h15 : i % 15 = (i % 30) % 15 :=
      (Nat.mod_mod_of_dvd i (by norm_num)).symm
    have hlen : targetFrequencies.length = 30 := rfl
    unfold voiceTarget
    rw [hlen, h15]
    set j := i % 30 with hj
    interval_cases j <;> rfl
  · rfl

/-- C8: `stop()` from any state leaves the phase `idle`, the elapsed time
0 and the voice set empty, and a second `stop()` produces the very same
state (idempotence). -/
theorem stopEngine_spec (s : EngineState) (now : ℚ) :
    getCurrentPhase (stopEngine s) = .idle ∧
    getElapsedTime (stopEngine s) now = 0 ∧
    (stopEngine s).voices = [] ∧
    (stopEngine s).frequencyHistory = [] ∧
    stopEngine (stopEngine s) = stopEngine s := by
  refine ⟨rfl, ?_, rfl, rfl, rfl⟩
  simp [getElapsedTime, stopEngine]

/-- C9: the scheduler's divisor `totalUpdates = floor(convergeDuration /
0.01)` is positive exactly when `convergeDuration ≥ 0.01`; for any
converge duration in `(0, 0.01)` it is zero, so the single scheduled
iteration divides `0 / 0` (JS `NaN`, modelled as `none`) and the
resulting set-point frequency is not a number. -/
theorem schedulerProgress_nan (cd : ℚ) (h0 : 0 < cd) (h1 : cd < 1 / 100) :
    (∀ d : ℚ, 0 < totalUpdates d ↔ 1 / 100 ≤ d) ∧
    totalUpdates cd = 0 ∧
    schedulerProgress cd 0 = none ∧
    ∀ s t : ℝ, schedulerSetPoint s t cd 0 = none := by
  have hiff : ∀ d : ℚ, 0 < totalUpdates d ↔ 1 / 100 ≤ d := by
    intro d
    unfold totalUpdates
    rw [Int.lt_iff_add_one_le, zero_add, Int.le_floor]
    constructor <;> intro h
    · have h' : (1 : ℚ) ≤ d / (1 / 100) := by exact_mod_cast h
      rw [le_div_iff₀ (by norm_num)] at h'
      linarith
    · rw [Int.cast_one, le_div_iff₀ (by norm_num)]
      linarith
  have hz : totalUpdates cd = 0 := by
    unfold totalUpdates
    rw [Int.floor_eq_zero_iff]
    constructor
    · rw [le_div_iff₀ (by norm_num)]; linarith
    · rw [div_lt_one (by norm_num)]; linarith
  refine ⟨hiff, hz, ?_, ?_⟩
  · unfold schedulerProgress jsDiv
    rw [hz]
    norm_num
  · intro s t
    unfold schedulerSetPoint schedulerProgress jsDiv
    rw [hz]
    norm_num

/-- C9, witness at converge duration 1/200 s. -/
theorem schedulerProgress_nan_witness :
    totalUpdates (1 / 200) = 0 ∧ schedulerProgress (1 / 200) 0 = none :=
  ⟨(schedulerProgress_nan (1 / 200) (by norm_num) (by norm_num)).2.1,
   (schedulerProgress_nan (1 / 200) (by norm_num) (by norm_num)).2.2.1⟩

/-- C2: evaluation of the failing trace.  With the default config
(`fadeStartTime = 11`): `start()` at t=0 arms the fade timeout for t=11;
`stop()` at t=1 leaves that timeout pending (the source never calls
`clearTimeout`); `start()` again at t=5 begins a second run; at t=11 the
first run's timer fires and — because the phase-≠-idle guard sees the
second run playing — applies its fade effect six seconds into the second
run.  So a timer armed before a `stop()` does fire a fade effect after
it. -/
theorem stale_timer_fires_after_restart :
    (runTimerEvents defaultConfig
      [.startEv 0, .stopEv 1]).timers = [⟨0, 11, .fadeRamp⟩] ∧
    (runTimerEvents defaultConfig
      [.startEv 0, .stopEv 1, .startEv 5, .fireEv 11]).effects =
      [(11, 0, .fadeRamp)] ∧
    (runTimerEvents defaultConfig
      [.startEv 0, .stopEv 1, .startEv 5, .fireEv 11]).phase = .chaos ∧
    (runTimerEvents defaultConfig
      [.startEv 0, .stopEv 1, .startEv 5, .fireEv 11]).timers =
      [⟨5, 16, .fadeRamp⟩, ⟨11, 12, .autoStop⟩] := by
  refine ⟨?_, ?_, ?_, ?_⟩ <;>
    norm_num [runTimerEvents, timerStep, fireTimer, fadeStartTime,
      defaultConfig, mkConfig, List.filter] <;>
    simp

/-- C4: evaluation of the failing input.  One voice; the engine's history
store starts as `[[]]`.  The first tick (t=1) pushes a point and a
snapshot is published whose history field is the shallow copy
`[...this.frequencyHistory]` — references to the same inner arrays.  The
second tick (t=2) pushes another point into those inner arrays, so
reading the published snapshot's history afterwards no longer gives what
it held at publication: the snapshot's per-voice array was changed by
later engine activity. -/
theorem snapshot_history_mutated_by_later_tick :
    sharedHistoryView (shallowCopyRefs (pushHistory [[]] [(300 : ℝ)] 1))
        (pushHistory (pushHistory [[]] [(300 : ℝ)] 1) [(300 : ℝ)] 2) ≠
      sharedHistoryView (shallowCopyRefs (pushHistory [[]] [(300 : ℝ)] 1))
        (pushHistory [[]] [(300 : ℝ)] 1) := by
  intro h
  have h0 := congrArg (fun l => (l.getD 0 []).length) h
  simp [sharedHistoryView, shallowCopyRefs, pushHistory, List.zipWith] at h0

/-- Length consistency of one snapshot: its target-frequency array, its
current-frequency array and its outer per-voice history array all have
exactly `n` entries. -/
def snapshotLengthsOk (n : ℕ) (snap : Snapshot) : Prop :=
  snap.frequencies.length = n ∧ snap.currentFrequencies.length = n ∧
  snap.frequencyHistory.length = n

/-- One visualization tick preserves the voice/history length invariant
and only publishes length-consistent snapshots. -/
theorem visualizationTick_lengths (c : DeepNoteConfig) (s : EngineState)
    (now : ℚ) (n : ℕ) (hv : s.voices.length = n)
    (hh : s.frequencyHistory.length = n) :
    (visualizationTick c s now).1.voices.length = n ∧
    (visualizationTick c s now).1.frequencyHistory.length = n ∧
    ∀ snap ∈ (visualizationTick c s now).2, snapshotLengthsOk n snap := by
  unfold visualizationTick
  by_cases hid : s.phase = .idle
  · simp [hid, hv, hh]
  · simp only [hid, if_false, Option.mem_def, Option.some.injEq]
    refine ⟨hv, ?_, ?_⟩
    · simp [pushHistory, hv, hh]
    · intro snap hsnap
      subst hsnap
      refine ⟨by simp [hv], by simp [hv], by simp [pushHistory, hv, hh]⟩

/-- Running any tick sequence from a state satisfying the length
invariant only emits length-consistent snapshots. -/
theorem runTicks_lengths (c : DeepNoteConfig) (n : ℕ) (ts : List ℚ)
    (s : EngineState) (hv : s.voices.length = n)
    (hh : s.frequencyHistory.length = n) :
    List.Forall (snapshotLengthsOk n) (runTicks c s ts).2 := by
  induction ts generalizing s with
  | nil => simp [runTicks]
  | cons t ts ih =>
      obtain ⟨hv', hh', hsnap⟩ := visualizationTick_lengths c s t n hv hh
      rw [runTicks, List.forall_iff_forall_mem]
      intro snap hmem
      rw [List.mem_append] at hmem
      rcases hmem with hmem | hmem
      · exact hsnap snap (by simpa using hmem)
      · exact List.forall_iff_forall_mem.mp (ih _ hv' hh') snap hmem

/-- C10: after a successful `start()`, the live voice count is
`config.voiceCount`, and every snapshot emitted by any sequence of
visualization ticks of that run has its target-frequency array, its
current-frequency array and its per-voice history array of length
`config.voiceCount`. -/
theorem run_snapshots_length_consistent (c : DeepNoteConfig)
    (randoms : ℕ → ℚ) (t0 : ℚ) (ts : List ℚ) :
    (startEngine c randoms t0 initialState).voices.length = c.voiceCount ∧
    List.Forall (snapshotLengthsOk c.voiceCount)
      (runTicks c (startEngine c randoms t0 initialState) ts).2 := by
  have hs : startEngine c randoms t0 initialState =
      { phase := .chaos
        voices := initializeVoices c randoms
        frequencyHistory := initializeFrequencyHistory (initializeVoices c randoms)
        animationId := none
        startTime := t0 } := by
    simp [startEngine, initialState]
  have hv : (initializeVoices c randoms).length = c.voiceCount := by
    simp [initializeVoices]
  refine ⟨by rw [hs]; exact hv, ?_⟩
  apply runTicks_lengths c c.voiceCount ts
  · rw [hs]; exact hv
  · rw [hs]
    simp [initializeFrequencyHistory, hv]

theorem easedProgress_zero : easedProgress 0 = 0 := by
  simp [easedProgress]

theorem easedProgress_one : easedProgress 1 = 1 := by
  simp [easedProgress, Real.cos_pi]
  norm_num

theorem easedProgress_nonneg (p : ℝ) : 0 ≤ easedProgress p := by
  have h := Real.cos_le_one (Real.pi * p)
  unfold easedProgress
  linarith

theorem easedProgress_le_one (p : ℝ) : easedProgress p ≤ 1 := by
  have h := Real.neg_one_le_cos (Real.pi * p)
  unfold easedProgress
  linarith

theorem easedProgress_mono {p q : ℝ} (h0 : 0 ≤ p) (hpq : p ≤ q) (h1 : q ≤ 1) :
    easedProgress p ≤ easedProgress q := by
  have hc : Real.cos (Real.pi * q) ≤ Real.cos (Real.pi * p) :=
    Real.cos_le_cos_of_nonneg_of_le_pi
      (mul_nonneg Real.pi_pos.le h0)
      (by calc Real.pi * q ≤ Real.pi * 1 :=
            mul_le_mul_of_nonneg_left h1 Real.pi_pos.le
          _ = Real.pi := mul_one _)
      (mul_le_mul_of_nonneg_left hpq Real.pi_pos.le)
  unfold easedProgress
  linarith

/-- C6: for a convergence schedule with `N > 0` updates, the set-point at
update index 0 equals the voice's start frequency exactly; the set-point
at index `N` equals the target frequency exactly; the index sequence is
monotone from start towards target; and every set-point stays inside the
closed interval between start and target (no overshoot). -/
theorem convergenceSetPoint_exact_mono (start target : ℝ) (N k j : ℕ)
    (hN : 0 < N) (hkj : k ≤ j) (hjN : j ≤ N) :
    convergenceSetPoint start target N 0 = start ∧
    convergenceSetPoint start target N N = target ∧
    min start target ≤ convergenceSetPoint start target N k ∧
    convergenceSetPoint start target N k ≤ max start target ∧
    (start ≤ target →
      convergenceSetPoint start target N k ≤ convergenceSetPoint start target N j) ∧
    (target ≤ start →
      convergenceSetPoint start target N j ≤ convergenceSetPoint start target N k) := by
  have hN' : (0 : ℝ) < (N : ℝ) := by exact_mod_cast hN
  have hk0 : (0 : ℝ) ≤ (k : ℝ) / (N : ℝ) :=
    div_nonneg (Nat.cast_nonneg k) hN'.le
  have hj1 : (j : ℝ) / (N : ℝ) ≤ 1 :=
    (div_le_one hN').mpr (by exact_mod_cast hjN)
  have hkj' : (k : ℝ) / (N : ℝ) ≤ (j : ℝ) / (N : ℝ) := by
    gcongr
  have hE0 : 0 ≤ easedProgress ((k : ℝ) / (N : ℝ)) := easedProgress_nonneg _
  have hE1 : easedProgress ((k : ℝ) / (N : ℝ)) ≤ 1 := easedProgress_le_one _
  have hmono : easedProgress ((k : ℝ) / (N : ℝ)) ≤
      easedProgress ((j : ℝ) / (N : ℝ)) :=
    easedProgress_mono hk0 hkj' hj1
  refine ⟨?_, ?_, ?_, ?_, ?_, ?_⟩
  · unfold convergenceSetPoint
    rw [Nat.cast_zero, zero_div, easedProgress_zero]
    ring
  · unfold convergenceSetPoint
    rw [div_self hN'.ne', easedProgress_one]
    ring
  · unfold convergenceSetPoint
    rcases le_total start target with h | h
    · rw [min_eq_left h]; nlinarith
    · rw [min_eq_right h]; nlinarith
  · unfold convergenceSetPoint
    rcases le_total start target with h | h
    · rw [max_eq_right h]; nlinarith
    · rw [max_eq_left h]; nlinarith
  · intro h
    unfold convergenceSetPoint
    nlinarith
  · intro h
    unfold convergenceSetPoint
    nlinarith

/-- C6, witness at start 0, target 1, two updates, indices 0 ≤ 1 ≤ 2. -/
theorem convergenceSetPoint_witness :
    convergenceSetPoint 0 1 2 0 = 0 ∧ convergenceSetPoint 0 1 2 2 = 1 :=
  ⟨(convergenceSetPoint_exact_mono 0 1 2 0 1 (by norm_num) (by norm_num)
      (by norm_num)).1,
   (convergenceSetPoint_exact_mono 0 1 2 0 1 (by norm_num) (by norm_num)
      (by norm_num)).2.1⟩

end DeepNote

